import Mathlib

/-!
Verification of the `ionize` Ion model (Python) against its specification.

The embedding translates `src/ionize/Ion/__init__.py`,
`src/ionize/Ion/robinson_stokes_mobility.py`, `src/ionize/Ion/diffusivity.py`
and `src/ionize/constants.py` into executable definitions.  Python floats
are modelled as `ℚ`
(exact arithmetic; every claim settled here depends only on the algebraic
shape of the computation, not on rounding), except for
`robinson_stokes_mobility`, whose fractional powers and square roots force a
model over `ℝ`.  Python `int` versus `float` values in the charge list `z`
are distinguished by the `PyNum` type, because the construction-time
validation (`range`, `isinstance`) treats them differently.  Exceptions
(`AssertionError`, `TypeError`, `ValueError`) are modelled with `Except`;
`warnings.warn` calls are modelled by accumulating a list of warning
strings.
-/

attribute [local semireducible] Rat.mul Rat.inv Rat.add Rat.sub

/-- A Python number: either an `int` or a `float`.  Python compares the two
kinds by numeric value (`1 == 1.0`), but `isinstance(·, int)` and `range`
distinguish them. -/
inductive PyNum where
  | int (n : ℤ)
  | float (q : ℚ)
deriving DecidableEq, Repr

/-- The numeric value of a `PyNum`. -/
def PyNum.val : PyNum → ℚ
  | .int n => (n : ℚ)
  | .float q => q

/-- Python `isinstance(·, int)`. -/
def PyNum.isInt : PyNum → Bool
  | .int _ => true
  | .float _ => false

/-- Errors raised by the Python code: `assert` statements, and the
`TypeError` / `ValueError` that `range` and tuple unpacking can raise. -/
inductive PyError where
  | assertError (msg : String)
  | typeError (msg : String)
  | valueError (msg : String)
deriving DecidableEq, Repr

/-- The absolute value of a rational, written so that it evaluates by
kernel reduction. -/
def pyabs (x : ℚ) : ℚ :=
  if x < 0 then -x else x

/-- Python `math.copysign x y`: the magnitude of `x` with the sign bit of
`y`.  A nonnegative rational models a float with positive sign bit (the
embedding cannot represent `-0.0`). -/
def pycopysign (x y : ℚ) : ℚ :=
  if y < 0 then -pyabs x else pyabs x

/-- Mathematical signum on `ℚ`, valued in `ℤ`: the "sign" of the
specification text. -/
def signQ (q : ℚ) : ℤ :=
  if q < 0 then -1 else if q = 0 then 0 else 1

/-- Evaluation of `numpy.poly1d(cs)` at `x`: coefficients are listed from
the highest degree down, evaluated by Horner's rule. -/
def polyval (cs : List ℚ) (x : ℚ) : ℚ :=
  cs.foldl (fun acc c => acc * x + c) 0

/-- Truthiness of the `numpy.poly1d(cs)` object.  `poly1d` trims leading
zero coefficients (keeping at least one) and defines `__len__` as the
polynomial order (`len(coeffs) - 1`); with no `__bool__`, the object is
falsy exactly when the order is `0`.  So the object is truthy iff some
coefficient of a positive power — an element before the constant term —
is nonzero. -/
def poly1d_truthy (cs : List ℚ) : Bool :=
  cs.dropLast.any (fun c => c != 0)

/-- The `nightingale_data` record: polynomial fit coefficients plus the
calibrated temperature range. -/
structure NightingaleData where
  fit : List ℚ
  min : ℚ
  max : ℚ
deriving DecidableEq, Repr

/-- The state of an `Ion` object: constructor inputs (reference data) plus
the derived, temperature-dependent fields. -/
structure IonState where
  name : String
  T : ℚ
  T_ref : ℚ
  dH : Option (List ℚ)
  dCp : Option (List ℚ)
  nightingale_data : Option NightingaleData
  pKa_ref : List ℚ
  absolute_mobility_ref : List ℚ
  z : List PyNum
  pKa : List ℚ
  absolute_mobility : List ℚ
  z0 : List PyNum
deriving DecidableEq, Repr

/-- External collaborators of the Ion core, exactly the out-of-scope
interfaces of the specification.  `viscosity` and `dielectric` are the
SolventProvider interface (`Aqueous` is not under `src/`).
`correctPKa` — Modelled from the spec: `_correct_pKa` (the file
`correct_pKa.py` is not under `src/`) applies the van't Hoff / Clark-Glew
temperature correction; it is a pure function of the reference pKa list,
`dH`, `dCp`, `T` and `T_ref`, which is all the claims here rely on.
`ionization_fraction` — Modelled from the spec: `ionization_fraction.py`
is not under `src/`; it is a pure function of the ion state and the pH.
`floatRepr` — Modelled from the spec: the text rendering of a Python
float used by the `json` standard library. -/
structure Env where
  viscosity : ℚ → ℚ
  dielectric : ℚ → ℚ
  correctPKa : List ℚ → Option (List ℚ) → Option (List ℚ) → ℚ → ℚ → List ℚ
  ionization_fraction : IonState → ℚ → List ℚ
  floatRepr : ℚ → List Char

/-- Python `zip` of three lists: truncates to the shortest. -/
def zip3 {α β γ : Type} : List α → List β → List γ → List (α × β × γ)
  | a :: as, b :: bs, c :: cs => (a, b, c) :: zip3 as bs cs
  | _, _, _ => []

/-- A charge-state triple `(z, pKa, mobility)` as sorted by `_z_sort`. -/
abbrev Triple := PyNum × ℚ × ℚ

/-- Python tuple comparison `(z, pKa, mob) <= (z, pKa, mob)`:
lexicographic, with `z` compared by numeric value. -/
def lexLe (a b : Triple) : Prop :=
  a.1.val < b.1.val ∨
    (a.1.val = b.1.val ∧ (a.2.1 < b.2.1 ∨ (a.2.1 = b.2.1 ∧ a.2.2 ≤ b.2.2)))

instance (a b : Triple) : Decidable (lexLe a b) := by
  unfold lexLe; infer_instance

/-- Stable insertion into a sorted list of triples. -/
def insertLex (a : Triple) : List Triple → List Triple
  | [] => [a]
  | b :: bs => if lexLe a b then a :: b :: bs else b :: insertLex a bs

/-- Stable sort of the charge-state triples, modelling Python `sorted` on
tuples. -/
def insertionSortLex : List Triple → List Triple
  | [] => []
  | a :: as => insertLex a (insertionSortLex as)

/-- Stable insertion of a `PyNum` by numeric value. -/
def insertVal (a : PyNum) : List PyNum → List PyNum
  | [] => [a]
  | b :: bs => if a.val ≤ b.val then a :: b :: bs else b :: insertVal a bs

/-- Python `sorted` on a list of numbers, by value, stable. -/
def insertionSortVal : List PyNum → List PyNum
  | [] => []
  | a :: as => insertVal a (insertionSortVal as)

/-- Python `min` over a nonempty list: first minimal element (defaults to
`0` on the empty list, which the code never reaches). -/
def minP : List PyNum → PyNum
  | [] => .int 0
  | x :: xs => xs.foldl (fun acc y => if y.val < acc.val then y else acc) x

/-- Python `max` over a nonempty list: first maximal element. -/
def maxP : List PyNum → PyNum
  | [] => .int 0
  | x :: xs => xs.foldl (fun acc y => if y.val > acc.val then y else acc) x

/-- Python `range(a, b+1)` as a list of integers. -/
def intRange (a b : ℤ) : List ℤ :=
  (List.range (b + 1 - a).toNat).map (fun (k : ℕ) => a + (k : ℤ))

/-- Python `set(z) ^ full == set()`: the value set of `z1` equals the set
of integers `full` (sets compare by numeric value). -/
def valsMatchRun (z1 : List PyNum) (full : List ℤ) : Bool :=
  ((z1.map PyNum.val).all fun v => full.any fun n => ((n : ℚ)) == v) &&
    (full.all fun n => (z1.map PyNum.val).any fun v => v == ((n : ℚ)))

/-- `Ion._z_sort`: zip the three state lists (truncating to the shortest),
sort them together by charge, then re-validate that the charge values form
the contiguous integer run from `min(z)` to `max(z)` with `0` removed.
`range` raises `TypeError` when `min(z)` or `max(z)` is not an `int`;
unpacking `zip(*sorted(...))` raises `ValueError` on empty input. -/
def z_sort (z : List PyNum) (p m : List ℚ) :
    Except PyError (List PyNum × List ℚ × List ℚ) :=
  if (zip3 z p m).isEmpty then
    .error (.valueError "not enough values to unpack")
  else
    match minP ((insertionSortLex (zip3 z p m)).map (fun t => t.1)),
        maxP ((insertionSortLex (zip3 z p m)).map (fun t => t.1)) with
    | PyNum.int a, PyNum.int b =>
        if valsMatchRun ((insertionSortLex (zip3 z p m)).map (fun t => t.1))
            ((intRange a b).filter (fun n => n ≠ 0)) then
          .ok ((insertionSortLex (zip3 z p m)).map (fun t => t.1),
               (insertionSortLex (zip3 z p m)).map (fun t => t.2.1),
               (insertionSortLex (zip3 z p m)).map (fun t => t.2.2))
        else .error (.assertError "Charge states missing.")
    | _, _ => .error (.typeError "object cannot be interpreted as an integer")

/-- `Ion._set_z0`: the charge list with the neutral state `0` inserted,
sorted. -/
def set_z0 (z : List PyNum) : List PyNum :=
  insertionSortVal (PyNum.int 0 :: z)

/-- The pKa list computed by `temperature_adjust`: the reference list when
`T == T_ref`, otherwise `_correct_pKa`. -/
def pKa_adjusted (env : Env) (s : IonState) : List ℚ :=
  if s.T = s.T_ref then s.pKa_ref
  else env.correctPKa s.pKa_ref s.dH s.dCp s.T s.T_ref

/-- The absolute-mobility list computed by `temperature_adjust`: the
reference list when `T == T_ref`; otherwise the branch is
`if self._nightingale_function:` — `_nightingale_function` is `None` when
no nightingale data is stored and `np.poly1d(fit)` otherwise, so the
nightingale branch (note the factor `z`, the charge itself) runs only
when the data is present *and* the `poly1d` object is truthy; a constant
(degree-0) fit is falsy and falls through to the Walden viscosity-ratio
correction, as does absent data. -/
def mobility_adjusted (env : Env) (s : IonState) : List ℚ :=
  if s.T = s.T_ref then s.absolute_mobility_ref
  else
    match s.nightingale_data with
    | some nd =>
        if poly1d_truthy nd.fit then
          s.z.map (fun zi =>
            polyval nd.fit s.T * (1035 / 10 ^ 13) * zi.val / env.viscosity s.T)
        else
          s.absolute_mobility_ref.map
            (fun m => env.viscosity s.T_ref / env.viscosity s.T * m)
    | none =>
        s.absolute_mobility_ref.map
          (fun m => env.viscosity s.T_ref / env.viscosity s.T * m)

/-- The warnings emitted by `temperature_adjust`: only the
nightingale-out-of-range warning (the adjacent string literals in the
source concatenate without a space), and only inside the
`if self._nightingale_function:` branch — unreachable when the `poly1d`
object is falsy (a constant fit) or the data is absent. -/
def adjust_warnings (s : IonState) : List String :=
  if s.T = s.T_ref then []
  else
    match s.nightingale_data with
    | some nd =>
        if poly1d_truthy nd.fit then
          if s.T > nd.max ∨ s.T < nd.min then
            ["Temperature outside rangefor nightingale data."]
          else []
        else []
    | none => []

/-- `Ion.temperature_adjust`: recompute `pKa` and `absolute_mobility` from
the reference data at the current `T`, then `_z_sort` and rebuild `z0`. -/
def temperature_adjust (env : Env) (s : IonState) :
    Except PyError (IonState × List String) :=
  match z_sort s.z (pKa_adjusted env s) (mobility_adjusted env s) with
  | .error e => .error e
  | .ok zpm =>
      .ok ({ s with
              z := zpm.1, pKa := zpm.2.1, absolute_mobility := zpm.2.2
              z0 := set_z0 zpm.1 },
           adjust_warnings s)

/-- The sign-consistency test of `Ion.__init__`:
`all(copysign(z, m) == z for z, m in zip(z, mobility))`. -/
def signAllOk (z : List PyNum) (m : List ℚ) : Bool :=
  (z.zip m).all fun t => pycopysign t.1.val t.2 == t.1.val

/-- The sign-coercion step of `Ion.__init__`: if any mobility sign
disagrees with its charge sign, replace every mobility by
`copysign(m, z)` and warn; otherwise leave the list unchanged. -/
def signFix (z : List PyNum) (m : List ℚ) : List ℚ × List String :=
  if signAllOk z m then (m, [])
  else ((z.zip m).map (fun t => pycopysign t.2 t.1.val),
        ["Mobility signs and charge signs don't match."])

/-- The state stored by `Ion.__init__` before the temperature adjustment:
the constructor inputs, with the derived fields still unset. -/
def init_state (name : String) (z : List PyNum)
    (pKa_ref absolute_mobility_ref : List ℚ) (dH dCp : Option (List ℚ))
    (ng : Option NightingaleData) (T T_ref : ℚ) : IonState :=
  { name := name, T := T, T_ref := T_ref, dH := dH, dCp := dCp
    nightingale_data := ng, pKa_ref := pKa_ref
    absolute_mobility_ref := absolute_mobility_ref, z := z
    pKa := [], absolute_mobility := [], z0 := [] }

/-- `Ion.__init__` after the scalar-to-list coercion of its inputs: store
the reference data, run `temperature_adjust`, coerce mobility signs, then
run the three `assert` validations. -/
def Ion_init (env : Env) (name : String) (z : List PyNum)
    (pKa_ref absolute_mobility_ref : List ℚ) (dH dCp : Option (List ℚ))
    (ng : Option NightingaleData) (T T_ref : ℚ) :
    Except PyError (IonState × List String) :=
  match temperature_adjust env
      (init_state name z pKa_ref absolute_mobility_ref dH dCp ng T T_ref) with
  | .error e => .error e
  | .ok sw =>
      if ¬ sw.1.z.all PyNum.isInt then
        .error (.assertError "z contains non-integer")
      else if sw.1.pKa.length ≠ sw.1.z.length then
        .error (.assertError "pKa is not the same length as z")
      else if (signFix sw.1.z sw.1.absolute_mobility).1.length ≠
          sw.1.z.length then
        .error (.assertError "absolute_mobility is not the same length as z")
      else
        .ok ({ sw.1 with
                absolute_mobility := (signFix sw.1.z sw.1.absolute_mobility).1 },
             sw.2 ++ (signFix sw.1.z sw.1.absolute_mobility).2)

/-- `Ion.set_T`: mutate `T` and re-run the temperature adjustment; the
in-place mutation is modelled by returning the updated state. -/
def set_T (env : Env) (s : IonState) (T : ℚ) :
    Except PyError (IonState × List String) :=
  temperature_adjust env { s with T := T }

/-- Boltzmann's constant from `constants.py`, J/K. -/
def boltzmann : ℚ := 138 / 10 ^ 25

/-- The elementary charge from `constants.py`, C. -/
def elementary_charge : ℚ := 1602 / 10 ^ 22

/-- The two ways `Ion.diffusivity` can divide by zero. -/
inductive DiffErr where
  | zeroCharge
  | zeroFractionSum
deriving DecidableEq, Repr

/-- `Ion.diffusivity`: the Nernst-Einstein average
`sum(m * f / z) * k_B * (T + 273.15) / e`, normalized by the fraction sum;
a `ZeroDivisionError` is modelled by the `Except` error. -/
def diffusivity (env : Env) (s : IonState) (pH : ℚ) : Except DiffErr ℚ :=
  let fracs := env.ionization_fraction s pH
  let triples := zip3 s.absolute_mobility fracs s.z
  if triples.any (fun t => t.2.2.val == 0) then .error .zeroCharge
  else
    let d := (triples.map (fun t => t.1 * t.2.1 / t.2.2.val)).sum *
      boltzmann * (s.T + 5463 / 20) / elementary_charge
    if fracs.sum == 0 then .error .zeroFractionSum
    else .ok (d / fracs.sum)

/-- Python `math.copysign(1, z)` as a real number. -/
def pysign1 (q : ℚ) : ℝ :=
  if q < 0 then -1 else 1

/-- The body of `robinson_stokes_mobility` after its temperature guard has
fired, translated line by line from the source.  The source assigns
`d_ref = obj.dielectric(T)` (the working temperature `T`, not `T_ref`),
which this model reproduces.  Fractional powers are real `rpow`, `sqrt` is
the real square root. -/
noncomputable def robinson_stokes_body (env : Env) (s : IonState)
    (I T : ℚ) : List ℝ :=
  let T_ref : ℝ := 25
  let d : ℝ := (env.dielectric T : ℚ)
  let d_ref : ℝ := (env.dielectric T : ℚ)
  let A : ℝ :=
    (2297 / 10 ^ 4) *
      ((T_ref + 5463 / 20) * d_ref / ((T : ℝ) + 5463 / 20) / d) ^ (-(3 / 2) : ℝ)
  let B : ℝ :=
    (3141 / 10 ^ 11) *
      ((T_ref + 5463 / 20) * d_ref / ((T : ℝ) + 5463 / 20) / d) ^ (-(1 / 2) : ℝ) *
      (env.viscosity 25 : ℚ) / (env.viscosity T : ℚ)
  (s.absolute_mobility.zip s.z).map fun t =>
    (t.1 : ℝ) -
      (A * (t.1 : ℝ) + B * pysign1 t.2.val) * Real.sqrt (I : ℚ) /
        (1 + 3 / 2 * Real.sqrt (I : ℚ))

/-- `Ion.robinson_stokes_mobility(I, T)`: the guard `if not T` replaces a
falsy temperature (in particular `T == 0`) by the ion's current
temperature before the body runs.  The Python default for an omitted `T`
is the constant `25`. -/
noncomputable def robinson_stokes_mobility (env : Env) (s : IonState)
    (I T : ℚ) : List ℝ :=
  robinson_stokes_body env s I (if T = 0 then s.T else T)

/-- The ionic-strength correction as the claim words it: identical to
`robinson_stokes_body` except that the reference side of the
dielectric/temperature ratio is evaluated at the reference temperature,
`d_ref = dielectric(T_ref)`. -/
noncomputable def robinson_stokes_claimed (env : Env) (s : IonState)
    (I T : ℚ) : List ℝ :=
  let T_ref : ℝ := 25
  let d : ℝ := (env.dielectric T : ℚ)
  let d_ref : ℝ := (env.dielectric 25 : ℚ)
  let A : ℝ :=
    (2297 / 10 ^ 4) *
      ((T_ref + 5463 / 20) * d_ref / ((T : ℝ) + 5463 / 20) / d) ^ (-(3 / 2) : ℝ)
  let B : ℝ :=
    (3141 / 10 ^ 11) *
      ((T_ref + 5463 / 20) * d_ref / ((T : ℝ) + 5463 / 20) / d) ^ (-(1 / 2) : ℝ) *
      (env.viscosity 25 : ℚ) / (env.viscosity T : ℚ)
  (s.absolute_mobility.zip s.z).map fun t =>
    (t.1 : ℝ) -
      (A * (t.1 : ℝ) + B * pysign1 t.2.val) * Real.sqrt (I : ℚ) /
        (1 + 3 / 2 * Real.sqrt (I : ℚ))

/-- The nightingale mobility formula as the claim words it: scaled by
`sign(z)` instead of by the charge `z` itself. -/
def nightingale_mobility_claimed (env : Env) (nd : NightingaleData)
    (T : ℚ) (z : List PyNum) : List ℚ :=
  z.map fun zi =>
    polyval nd.fit T * (1035 / 10 ^ 13) * ((signQ zi.val : ℤ) : ℚ) / env.viscosity T

/-- The double-quote character. -/
def quoteChar : Char := Char.ofNat 34

/-- The backslash character. -/
def backslashChar : Char := Char.ofNat 92

/-- The opening-brace character. -/
def lbraceChar : Char := Char.ofNat 123

/-- The closing-brace character. -/
def rbraceChar : Char := Char.ofNat 125

/-- JSON string-content escaping (the characters arising here are quotes
and backslashes; control characters do not occur in the rendered record). -/
def escapeJSON (s : List Char) : List Char :=
  (s.map fun c =>
    if c = quoteChar ∨ c = backslashChar then [backslashChar, c] else [c]).flatten

/-- The JSON encoding of a Python `str`: quote, escaped content, quote. -/
def encodeJSONString (s : List Char) : List Char :=
  quoteChar :: escapeJSON s ++ [quoteChar]

/-- Comma-space separated concatenation, as `json.dumps` renders
containers. -/
def joinComma : List (List Char) → List Char
  | [] => []
  | [x] => x
  | x :: y :: ys => x ++ (", ".data) ++ joinComma (y :: ys)

/-- A JSON array from already-rendered items. -/
def renderArr (items : List (List Char)) : List Char :=
  "[".data ++ joinComma items ++ "]".data

/-- A JSON `key: value` pair. -/
def renderKV (k : List Char) (v : List Char) : List Char :=
  encodeJSONString k ++ (": ".data) ++ v

/-- A `PyNum` as JSON text: ints by decimal repr, floats by the
environment's float rendering. -/
def renderNum (env : Env) : PyNum → List Char
  | .int n => (Int.repr n).data
  | .float q => env.floatRepr q

/-- An optional float list as JSON: `null` or an array. -/
def renderOptFloats (env : Env) : Option (List ℚ) → List Char
  | none => "null".data
  | some l => renderArr (l.map env.floatRepr)

/-- The nightingale record as JSON: `null` or an object. -/
def renderNg (env : Env) : Option NightingaleData → List Char
  | none => "null".data
  | some nd =>
      lbraceChar ::
        joinComma
          [renderKV "fit".data (renderArr (nd.fit.map env.floatRepr)),
           renderKV "min".data (env.floatRepr nd.min),
           renderKV "max".data (env.floatRepr nd.max)] ++ [rbraceChar]

/-- `Ion.serialize()` with `nested=False` — Modelled from the spec: the
`json.dumps` rendering (the `json` standard library is outside `src/`) of
the fixed-shape reference record, keys in insertion order, default
separators.  The result is the JSON text of an object. -/
def serialize (env : Env) (s : IonState) : List Char :=
  lbraceChar ::
    joinComma
      [renderKV "__ion__".data ("true".data),
       renderKV "name".data (encodeJSONString s.name.data),
       renderKV "z".data (renderArr (s.z.map (renderNum env))),
       renderKV "pKa_ref".data (renderArr (s.pKa_ref.map env.floatRepr)),
       renderKV "absolute_mobility_ref".data
         (renderArr (s.absolute_mobility_ref.map env.floatRepr)),
       renderKV "dH".data (renderOptFloats env s.dH),
       renderKV "dCp".data (renderOptFloats env s.dCp),
       renderKV "nightingale_data".data (renderNg env s.nightingale_data)]
    ++ [rbraceChar]

/-- `Ion.save(path)`: the file receives `json.dump(self.serialize(), f)`,
i.e. the JSON encoding of the *string* returned by `serialize` — the
record is JSON-encoded twice. -/
def save (env : Env) (s : IonState) : List Char :=
  encodeJSONString (serialize env s)

/-- The top-level JSON value category of a text, read off its first
character. -/
inductive JKind where
  | stringK
  | objectK
  | otherK
deriving DecidableEq, Repr

/-- Classify a JSON text by its top-level value kind. -/
def jsonTopKind : List Char → JKind
  | c :: _ =>
      if c = quoteChar then .stringK
      else if c = lbraceChar then .objectK
      else .otherK
  | [] => .otherK

/-- Parse the tail of a JSON string literal (after the opening quote):
unescape up to the closing quote, requiring the text to end there. -/
def decodeStrTail : List Char → Option (List Char)
  | [] => none
  | c :: cs =>
      if c = backslashChar then
        match cs with
        | [] => none
        | d :: ds => (decodeStrTail ds).map (fun r => d :: r)
      else if c = quoteChar then
        if cs = [] then some [] else none
      else (decodeStrTail cs).map (fun r => c :: r)

/-- Parse a complete JSON string literal, as `json.load` would when the
whole document is one string. -/
def decodeJSONString : List Char → Option (List Char)
  | c :: rest => if c = quoteChar then decodeStrTail rest else none
  | [] => none

/-- A stub solvent/collaborator environment, as the specification's
substitutable SolventProvider: unit viscosity and dielectric, a pKa
correction that returns the reference values, a one-state ionization
fraction, and an empty float rendering. -/
def envW : Env :=
  { viscosity := fun _ => 1
    dielectric := fun _ => 1
    correctPKa := fun p _ _ _ _ => p
    ionization_fraction := fun _ _ => [1]
    floatRepr := fun _ => [] }

/-- A stub environment whose dielectric varies with temperature:
`dielectric(25) = 1` and `1/4` elsewhere. -/
def envDiel : Env :=
  { envW with dielectric := fun T => if T = 25 then 1 else 1/4 }

/-- The state produced by constructing the specification example
`Ion("a", z=[1], pKa_ref=[5], absolute_mobility_ref=[-5e-8])` at
`T = T_ref = 25`: the mobility sign has been coerced to match the charge. -/
def sExA : IonState :=
  { name := "a", T := 25, T_ref := 25, dH := none, dCp := none
    nightingale_data := none, pKa_ref := [5]
    absolute_mobility_ref := [-(5 : ℚ)/10^8], z := [.int 1]
    pKa := [5], absolute_mobility := [(5 : ℚ)/10^8], z0 := [.int 0, .int 1] }

/-- The state produced by constructing with a zero reference mobility for
charge `+1`: the copysign test passes, so the zero mobility is kept. -/
def sZeroMob : IonState :=
  { name := "zm", T := 25, T_ref := 25, dH := none, dCp := none
    nightingale_data := none, pKa_ref := [5]
    absolute_mobility_ref := [0], z := [.int 1]
    pKa := [5], absolute_mobility := [0], z0 := [.int 0, .int 1] }

/-- The state produced by constructing with `z=[1, 2]` but single-element
`pKa_ref` and mobility lists: `zip` inside `_z_sort` silently truncates
`z` to `[1]` and construction succeeds. -/
def sTrunc : IonState :=
  { name := "x", T := 25, T_ref := 25, dH := none, dCp := none
    nightingale_data := none, pKa_ref := [5]
    absolute_mobility_ref := [(1 : ℚ)/10^8], z := [.int 1]
    pKa := [5], absolute_mobility := [(1 : ℚ)/10^8], z0 := [.int 0, .int 1] }

/-- The state produced by constructing with unsorted `z = [2, 1]`,
`pKa_ref = [7, 3]`, mobilities `[2e-8, 1e-8]`: `_z_sort` re-sorts the
triples, so `pKa = [3, 7]`, while the stored reference lists keep the
constructor order. -/
def sUnsorted : IonState :=
  { name := "u", T := 25, T_ref := 25, dH := none, dCp := none
    nightingale_data := none, pKa_ref := [7, 3]
    absolute_mobility_ref := [(2 : ℚ)/10^8, (1 : ℚ)/10^8]
    z := [.int 1, .int 2], pKa := [3, 7]
    absolute_mobility := [(1 : ℚ)/10^8, (2 : ℚ)/10^8]
    z0 := [.int 0, .int 1, .int 2] }

/-- The state produced by reconstructing from `sUnsorted`'s serialized
record (`z = [1, 2]` now sorted, reference lists in the original
constructor order): the pairing of pKa values with charges differs from
`sUnsorted`. -/
def sUnsortedRT : IonState :=
  { name := "u", T := 25, T_ref := 25, dH := none, dCp := none
    nightingale_data := none, pKa_ref := [7, 3]
    absolute_mobility_ref := [(2 : ℚ)/10^8, (1 : ℚ)/10^8]
    z := [.int 1, .int 2], pKa := [7, 3]
    absolute_mobility := [(2 : ℚ)/10^8, (1 : ℚ)/10^8]
    z0 := [.int 0, .int 1, .int 2] }

/-- The acetic-acid example of the specification, constructed at
`T = T_ref = 25`. -/
def sAcetic : IonState :=
  { name := "acetic", T := 25, T_ref := 25, dH := none, dCp := none
    nightingale_data := none, pKa_ref := [476/100]
    absolute_mobility_ref := [-(424 : ℚ)/10^10], z := [.int (-1)]
    pKa := [476/100], absolute_mobility := [-(424 : ℚ)/10^10]
    z0 := [.int (-1), .int 0] }

/-- A degree-1 nightingale record (`fit` is the polynomial `T - 29`, so
the `np.poly1d` object is truthy), calibrated on `[0, 100]`; the
polynomial evaluates to `1` at `T = 30`. -/
def ngLin : NightingaleData :=
  { fit := [1, -29], min := 0, max := 100 }

/-- A pre-adjustment state with nightingale data, charge `+1`, at
`T = 30 ≠ T_ref = 25`. -/
def sNgIn : IonState :=
  { name := "ng", T := 30, T_ref := 25, dH := none, dCp := none
    nightingale_data := some ngLin, pKa_ref := [5]
    absolute_mobility_ref := [(1 : ℚ)/10^8], z := [.int 1]
    pKa := [], absolute_mobility := [], z0 := [] }

/-- A pre-adjustment state with nightingale data and charge `+2`, at
`T = 30 ≠ T_ref = 25`: the divalent case separating the `z` factor of the
source from the `sign(z)` factor of the claim. -/
def sNg2In : IonState :=
  { name := "ng2", T := 30, T_ref := 25, dH := none, dCp := none
    nightingale_data := some ngLin, pKa_ref := [5]
    absolute_mobility_ref := [(1 : ℚ)/10^8], z := [.int 2]
    pKa := [], absolute_mobility := [], z0 := [] }

/-- A minimal ion state for exercising `robinson_stokes_mobility`: one
`+1` state with mobility `1e-8` at `T = 25`. -/
def sRS : IonState :=
  { name := "rs", T := 25, T_ref := 25, dH := none, dCp := none
    nightingale_data := none, pKa_ref := [5]
    absolute_mobility_ref := [(1 : ℚ)/10^8], z := [.int 1]
    pKa := [5], absolute_mobility := [(1 : ℚ)/10^8], z0 := [.int 0, .int 1] }

/-- The result of temperature-adjusting `sNgIn`: the nightingale
polynomial evaluates to `1` at `T = 30`, scaled by `1.035e-10` and by the
charge `+1`. -/
def sNgAdj : IonState :=
  { name := "ng", T := 30, T_ref := 25, dH := none, dCp := none
    nightingale_data := some ngLin, pKa_ref := [5]
    absolute_mobility_ref := [(1 : ℚ)/10^8], z := [.int 1]
    pKa := [5], absolute_mobility := [1035 / 10 ^ 13]
    z0 := [.int 0, .int 1] }

/-- The result of temperature-adjusting `sNg2In`: the mobility is scaled
by the charge `+2` (the value `2.07e-10`), not by `sign(+2) = 1`. -/
def sNg2Adj : IonState :=
  { name := "ng2", T := 30, T_ref := 25, dH := none, dCp := none
    nightingale_data := some ngLin, pKa_ref := [5]
    absolute_mobility_ref := [(1 : ℚ)/10^8], z := [.int 2]
    pKa := [5], absolute_mobility := [207 / 10 ^ 12]
    z0 := [.int 0, .int 2] }

instance : DecidableEq (Except PyError (IonState × List String)) :=
  fun a b =>
    match a, b with
    | .error e, .error f =>
        if h : e = f then .isTrue (by rw [h]) else .isFalse (by simp [h])
    | .ok x, .ok y =>
        if h : x = y then .isTrue (by rw [h]) else .isFalse (by simp [h])
    | .error _, .ok _ => .isFalse (by simp)
    | .ok _, .error _ => .isFalse (by simp)

instance : DecidableEq (Except DiffErr ℚ) :=
  fun a b =>
    match a, b with
    | .error e, .error f =>
        if h : e = f then .isTrue (by rw [h]) else .isFalse (by simp [h])
    | .ok x, .ok y =>
        if h : x = y then .isTrue (by rw [h]) else .isFalse (by simp [h])
    | .error _, .ok _ => .isFalse (by simp)
    | .ok _, .error _ => .isFalse (by simp)

@[simp]
theorem zip3_cons {α β γ : Type} (a : α) (b : β) (c : γ)
    (as : List α) (bs : List β) (cs : List γ) :
    zip3 (a :: as) (b :: bs) (c :: cs) = (a, b, c) :: zip3 as bs cs := rfl

@[simp]
theorem zip3_nil_left {α β γ : Type} (bs : List β) (cs : List γ) :
    zip3 ([] : List α) bs cs = [] := rfl

@[simp]
theorem zip3_nil_mid {α β γ : Type} (a : α) (as : List α) (cs : List γ) :
    zip3 (a :: as) ([] : List β) cs = [] := rfl

@[simp]
theorem zip3_nil_right {α β γ : Type} (a : α) (as : List α) (b : β)
    (bs : List β) : zip3 (a :: as) (b :: bs) ([] : List γ) = [] := rfl

theorem mem_zip3_trd {α β γ : Type} {as : List α} {bs : List β}
    {cs : List γ} {t : α × β × γ} (h : t ∈ zip3 as bs cs) : t.2.2 ∈ cs := by
  induction as generalizing bs cs with
  | nil => simp [zip3] at h
  | cons a as ih =>
      cases bs with
      | nil => simp at h
      | cons b bs =>
          cases cs with
          | nil => simp at h
          | cons c cs =>
              rcases (by simpa using h) with h1 | h2
              · simp [h1]
              · exact List.mem_cons_of_mem _ (ih h2)

theorem mem_zip3_fst {α β γ : Type} {as : List α} {bs : List β}
    {cs : List γ} {t : α × β × γ} (h : t ∈ zip3 as bs cs) : t.1 ∈ as := by
  induction as generalizing bs cs with
  | nil => simp [zip3] at h
  | cons a as ih =>
      cases bs with
      | nil => simp at h
      | cons b bs =>
          cases cs with
          | nil => simp at h
          | cons c cs =>
              rcases (by simpa using h) with h1 | h2
              · simp [h1]
              · exact List.mem_cons_of_mem _ (ih h2)

theorem zip3_fst_zip3 {α β γ : Type} (z : List α) (p : List β) (m : List γ) :
    zip3 ((zip3 z p m).map (fun t => t.1)) p m = zip3 z p m := by
  induction z generalizing p m with
  | nil => simp
  | cons a as ih =>
      cases p with
      | nil => simp [zip3]
      | cons b bs =>
          cases m with
          | nil => simp
          | cons c cs => simp [ih]

theorem zip3_fst_map_f {α β : Type} (f : α → β) (z : List α) (p : List β) :
    zip3 ((zip3 z p (z.map f)).map (fun t => t.1)) p
        (((zip3 z p (z.map f)).map (fun t => t.1)).map f) =
      zip3 z p (z.map f) := by
  induction z generalizing p with
  | nil => simp
  | cons a as ih =>
      cases p with
      | nil => simp [zip3]
      | cons b bs =>
          simp only [List.map_cons, zip3_cons, List.cons.injEq, true_and]
          simpa using ih bs

theorem zip3_trd_of_map {α β : Type} (f : α → β) {z : List α} {p : List β}
    {t : α × β × β} (h : t ∈ zip3 z p (z.map f)) : t.2.2 = f t.1 := by
  induction z generalizing p with
  | nil => simp [zip3] at h
  | cons a as ih =>
      cases p with
      | nil => simp at h
      | cons b bs =>
          rcases (by simpa using h) with h1 | h2
          · simp [h1]
          · exact ih h2

theorem zip3_head_fst {α β γ : Type} (as : List α) (bs : List β)
    (cs : List γ) (t : α × β × γ) (h : t ∈ (zip3 as bs cs).head?) :
    t.1 ∈ as.head? := by
  cases as with
  | nil => simp [zip3] at h
  | cons a as =>
      cases bs with
      | nil => simp at h
      | cons b bs =>
          cases cs with
          | nil => simp at h
          | cons c cs =>
              simp only [zip3_cons, List.head?_cons, Option.mem_def,
                Option.some.injEq] at h
              rw [← h]
              simp

theorem zip3_chain {z : List PyNum} (p m : List ℚ)
    (h : z.Chain' (fun x y => x.val < y.val)) :
    (zip3 z p m).Chain' lexLe := by
  induction z generalizing p m with
  | nil => simp
  | cons a as ih =>
      cases p with
      | nil => simp [zip3]
      | cons b bs =>
          cases m with
          | nil => simp
          | cons c cs =>
              rw [zip3_cons, List.chain'_cons']
              refine ⟨fun y hy => ?_, ih bs cs h.tail⟩
              have h1 := zip3_head_fst as bs cs y hy
              have h2 := (List.chain'_cons'.mp h).1
              exact Or.inl (h2 y.1 h1)

theorem insertLex_of_le (a b : Triple) (l : List Triple) (h : lexLe a b) :
    insertLex a (b :: l) = a :: b :: l := by
  simp [insertLex, if_pos h]

theorem insertionSortLex_eq_self (l : List Triple) (h : l.Chain' lexLe) :
    insertionSortLex l = l := by
  induction l with
  | nil => rfl
  | cons a l ih =>
      have ht : insertionSortLex l = l := ih h.tail
      cases l with
      | nil => rfl
      | cons b t =>
          have hab : lexLe a b := (List.chain'_cons.mp h).1
          show insertLex a (insertionSortLex (b :: t)) = a :: b :: t
          rw [ht, insertLex_of_le a b t hab]

theorem zip3_map_fst_of_len {α β γ : Type} (z : List α) (p : List β)
    (m : List γ) (hp : p.length = z.length) (hm : m.length = z.length) :
    (zip3 z p m).map (fun t => t.1) = z := by
  induction z generalizing p m with
  | nil => simp
  | cons a as ih =>
      cases p with
      | nil => simp at hp
      | cons b bs =>
          cases m with
          | nil => simp at hm
          | cons c cs =>
              simp only [zip3_cons, List.map_cons, List.cons.injEq, true_and]
              exact ih bs cs (by simpa using hp) (by simpa using hm)

theorem zip3_map_snd_of_len {α β γ : Type} (z : List α) (p : List β)
    (m : List γ) (hp : p.length = z.length) (hm : m.length = z.length) :
    (zip3 z p m).map (fun t => t.2.1) = p := by
  induction z generalizing p m with
  | nil => cases p <;> simp_all
  | cons a as ih =>
      cases p with
      | nil => simp at hp
      | cons b bs =>
          cases m with
          | nil => simp at hm
          | cons c cs =>
              simp only [zip3_cons, List.map_cons, List.cons.injEq, true_and]
              exact ih bs cs (by simpa using hp) (by simpa using hm)

theorem zip3_map_trd_of_len {α β γ : Type} (z : List α) (p : List β)
    (m : List γ) (hp : p.length = z.length) (hm : m.length = z.length) :
    (zip3 z p m).map (fun t => t.2.2) = m := by
  induction z generalizing p m with
  | nil => cases m <;> simp_all
  | cons a as ih =>
      cases p with
      | nil => simp at hp
      | cons b bs =>
          cases m with
          | nil => simp at hm
          | cons c cs =>
              simp only [zip3_cons, List.map_cons, List.cons.injEq, true_and]
              exact ih bs cs (by simpa using hp) (by simpa using hm)

theorem valsMatchRun_no_zero {z1 : List PyNum} {a b : ℤ}
    (h : valsMatchRun z1 ((intRange a b).filter (fun n => n ≠ 0)) = true) :
    ∀ x ∈ z1, x.val ≠ 0 := by
  intro x hx
  unfold valsMatchRun at h
  rw [Bool.and_eq_true] at h
  have h1 := h.1
  rw [List.all_eq_true] at h1
  have hv : x.val ∈ z1.map PyNum.val := List.mem_map_of_mem _ hx
  have h2 := h1 _ hv
  rw [List.any_eq_true] at h2
  obtain ⟨n, hn, he⟩ := h2
  rw [List.mem_filter] at hn
  have hne : n ≠ 0 := by simpa using hn.2
  rw [beq_iff_eq] at he
  intro h0
  rw [h0] at he
  exact hne (by exact_mod_cast he)

theorem z_sort_ok {z : List PyNum} {p m : List ℚ}
    {z1 : List PyNum} {p1 m1 : List ℚ}
    (h : z_sort z p m = .ok (z1, p1, m1)) :
    z1 = (insertionSortLex (zip3 z p m)).map (fun t => t.1) ∧
    p1 = (insertionSortLex (zip3 z p m)).map (fun t => t.2.1) ∧
    m1 = (insertionSortLex (zip3 z p m)).map (fun t => t.2.2) ∧
    (zip3 z p m).isEmpty = false ∧
    ∃ a b : ℤ,
      minP ((insertionSortLex (zip3 z p m)).map (fun t => t.1)) = .int a ∧
      maxP ((insertionSortLex (zip3 z p m)).map (fun t => t.1)) = .int b ∧
      valsMatchRun ((insertionSortLex (zip3 z p m)).map (fun t => t.1))
        ((intRange a b).filter (fun n => n ≠ 0)) = true := by
  unfold z_sort at h
  split at h
  · exact Except.noConfusion h
  · rename_i hne
    split at h
    · rename_i a b hmin hmax
      split at h
      · rename_i hrun
        injection h with h2
        rw [Prod.mk.injEq, Prod.mk.injEq] at h2
        obtain ⟨e1, e2, e3⟩ := h2
        exact ⟨e1.symm, e2.symm, e3.symm, by simpa using hne,
          a, b, hmin, hmax, hrun⟩
      · exact Except.noConfusion h
    · exact Except.noConfusion h

theorem z_sort_ok_of_checks {z : List PyNum} {p m : List ℚ} {a b : ℤ}
    (hne : (zip3 z p m).isEmpty = false)
    (hmin : minP ((insertionSortLex (zip3 z p m)).map (fun t => t.1)) = .int a)
    (hmax : maxP ((insertionSortLex (zip3 z p m)).map (fun t => t.1)) = .int b)
    (hrun : valsMatchRun ((insertionSortLex (zip3 z p m)).map (fun t => t.1))
      ((intRange a b).filter (fun n => n ≠ 0)) = true) :
    z_sort z p m =
      .ok ((insertionSortLex (zip3 z p m)).map (fun t => t.1),
           (insertionSortLex (zip3 z p m)).map (fun t => t.2.1),
           (insertionSortLex (zip3 z p m)).map (fun t => t.2.2)) := by
  unfold z_sort
  rw [if_neg (by simp [hne]), hmin, hmax]
  exact if_pos hrun

theorem temperature_adjust_ok {env : Env} {s s2 : IonState} {w : List String}
    (h : temperature_adjust env s = .ok (s2, w)) :
    z_sort s.z (pKa_adjusted env s) (mobility_adjusted env s) =
      .ok (s2.z, s2.pKa, s2.absolute_mobility) ∧
    s2 = { s with
            z := s2.z, pKa := s2.pKa
            absolute_mobility := s2.absolute_mobility
            z0 := set_z0 s2.z } ∧
    w = adjust_warnings s := by
  unfold temperature_adjust at h
  split at h
  · exact Except.noConfusion h
  · rename_i zpm hz
    injection h with h2
    rw [Prod.mk.injEq] at h2
    obtain ⟨hs2, hw⟩ := h2
    subst hs2
    exact ⟨hz, rfl, hw.symm⟩

theorem mobility_adjusted_ng {env : Env} {s : IonState}
    {nd : NightingaleData} (hT : s.T ≠ s.T_ref)
    (hng : s.nightingale_data = some nd)
    (htr : poly1d_truthy nd.fit = true) :
    mobility_adjusted env s =
      s.z.map (fun zi =>
        polyval nd.fit s.T * (1035 / 10 ^ 13) * zi.val /
          env.viscosity s.T) := by
  unfold mobility_adjusted
  rw [if_neg hT, hng]
  show (if poly1d_truthy nd.fit = true then
      s.z.map (fun zi =>
        polyval nd.fit s.T * (1035 / 10 ^ 13) * zi.val /
          env.viscosity s.T)
    else
      s.absolute_mobility_ref.map
        (fun m => env.viscosity s.T_ref / env.viscosity s.T * m)) = _
  rw [if_pos htr]

theorem mobility_adjusted_falsy {env : Env} {s : IonState}
    {nd : NightingaleData} (hT : s.T ≠ s.T_ref)
    (hng : s.nightingale_data = some nd)
    (htr : poly1d_truthy nd.fit = false) :
    mobility_adjusted env s =
      s.absolute_mobility_ref.map
        (fun m => env.viscosity s.T_ref / env.viscosity s.T * m) := by
  unfold mobility_adjusted
  rw [if_neg hT, hng]
  show (if poly1d_truthy nd.fit = true then
      s.z.map (fun zi =>
        polyval nd.fit s.T * (1035 / 10 ^ 13) * zi.val /
          env.viscosity s.T)
    else
      s.absolute_mobility_ref.map
        (fun m => env.viscosity s.T_ref / env.viscosity s.T * m)) = _
  rw [if_neg (by simp [htr])]

theorem adjust_warnings_ng {s : IonState} {nd : NightingaleData}
    (hT : s.T ≠ s.T_ref) (hng : s.nightingale_data = some nd)
    (htr : poly1d_truthy nd.fit = true) :
    adjust_warnings s =
      if s.T > nd.max ∨ s.T < nd.min then
        ["Temperature outside rangefor nightingale data."]
      else [] := by
  unfold adjust_warnings
  rw [if_neg hT, hng]
  show (if poly1d_truthy nd.fit = true then
      (if s.T > nd.max ∨ s.T < nd.min then
        ["Temperature outside rangefor nightingale data."]
      else [])
    else []) = _
  rw [if_pos htr]

theorem adjust_warnings_falsy {s : IonState} {nd : NightingaleData}
    (hT : s.T ≠ s.T_ref) (hng : s.nightingale_data = some nd)
    (htr : poly1d_truthy nd.fit = false) :
    adjust_warnings s = [] := by
  unfold adjust_warnings
  rw [if_neg hT, hng]
  show (if poly1d_truthy nd.fit = true then
      (if s.T > nd.max ∨ s.T < nd.min then
        ["Temperature outside rangefor nightingale data."]
      else [])
    else []) = _
  rw [if_neg (by simp [htr])]

theorem Ion_init_ok {env : Env} {name : String} {z : List PyNum}
    {p m : List ℚ} {dH dCp : Option (List ℚ)} {ng : Option NightingaleData}
    {T T_ref : ℚ} {s : IonState} {w : List String}
    (h : Ion_init env name z p m dH dCp ng T T_ref = .ok (s, w)) :
    ∃ s1 w1,
      temperature_adjust env (init_state name z p m dH dCp ng T T_ref) =
        .ok (s1, w1) ∧
      s = { s1 with
              absolute_mobility := (signFix s1.z s1.absolute_mobility).1 } ∧
      w = w1 ++ (signFix s1.z s1.absolute_mobility).2 ∧
      s1.z.all PyNum.isInt = true ∧
      s1.pKa.length = s1.z.length ∧
      (signFix s1.z s1.absolute_mobility).1.length = s1.z.length := by
  unfold Ion_init at h
  split at h
  · exact Except.noConfusion h
  · rename_i sw hta
    split at h
    · exact Except.noConfusion h
    · rename_i hint
      split at h
      · exact Except.noConfusion h
      · rename_i hlp
        split at h
        · exact Except.noConfusion h
        · rename_i hlm
          injection h with h2
          rw [Prod.mk.injEq] at h2
          obtain ⟨hs, hw⟩ := h2
          exact ⟨sw.1, sw.2, hta, hs.symm, hw.symm, by simpa using hint,
            by simpa using hlp, by simpa using hlm⟩

theorem pyabs_nonneg (x : ℚ) : 0 ≤ pyabs x := by
  unfold pyabs
  split <;> linarith

theorem pyabs_eq_zero {x : ℚ} (h : pyabs x = 0) : x = 0 := by
  unfold pyabs at h
  split at h <;> linarith

theorem zip_map_graph {α β γ : Type} (g : α × β → γ) (z : List α)
    (m : List β) :
    z.zip ((z.zip m).map g) = (z.zip m).map (fun t => (t.1, g t)) := by
  induction z generalizing m with
  | nil => simp
  | cons a as ih =>
      cases m with
      | nil => simp
      | cons b bs => simp [ih]

theorem signFix_sign {z : List PyNum} {m : List ℚ}
    (hz : ∀ x ∈ z, x.val ≠ 0) :
    ∀ t ∈ z.zip (signFix z m).1, t.2 ≠ 0 → signQ t.2 = signQ t.1.val := by
  intro t ht hne
  obtain ⟨a, q⟩ := t
  have hz1 : a.val ≠ 0 := hz a (List.of_mem_zip ht).1
  unfold signFix at ht
  by_cases hok : signAllOk z m
  · rw [if_pos hok] at ht
    have hcs : pycopysign a.val q = a.val := by
      unfold signAllOk at hok
      rw [List.all_eq_true] at hok
      have h3 := hok (a, q) ht
      rwa [beq_iff_eq] at h3
    rcases lt_trichotomy q 0 with hq | hq | hq
    · rw [pycopysign, if_pos hq] at hcs
      have hav : a.val < 0 := by
        rcases lt_trichotomy a.val 0 with h | h | h
        · exact h
        · exact absurd h hz1
        · exfalso
          rw [pyabs, if_neg (by linarith)] at hcs
          linarith
      unfold signQ
      rw [if_pos hq, if_pos hav]
    · exact absurd hq hne
    · rw [pycopysign, if_neg (by linarith)] at hcs
      have hav : 0 < a.val := by
        rcases lt_trichotomy a.val 0 with h | h | h
        · exfalso
          rw [pyabs, if_pos h] at hcs
          linarith
        · exact absurd h hz1
        · exact h
      unfold signQ
      rw [if_neg (by linarith), if_neg hne, if_neg (by linarith), if_neg hz1]
  · rw [if_neg hok] at ht
    rw [zip_map_graph, List.mem_map] at ht
    obtain ⟨u, hu, hut⟩ := ht
    obtain ⟨b, r⟩ := u
    rw [Prod.mk.injEq] at hut
    obtain ⟨h1, h2⟩ := hut
    subst h1
    have habs : 0 < pyabs r := by
      rcases lt_or_eq_of_le (pyabs_nonneg r) with h | h
      · exact h
      · exfalso
        apply hne
        rw [← h2, pycopysign]
        split <;> simp [← h]
    rcases lt_trichotomy (PyNum.val b) 0 with hb | hb | hb
    · have hqv : q < 0 := by
        rw [← h2, pycopysign, if_pos hb]
        linarith
      unfold signQ
      rw [if_pos hqv, if_pos hb]
    · exact absurd hb hz1
    · have hqv : 0 < q := by
        rw [← h2, pycopysign, if_neg (by linarith)]
        linarith
      unfold signQ
      rw [if_neg (by linarith), if_neg hne, if_neg (by linarith), if_neg hz1]

theorem Ion_init_no_zero {env : Env} {name : String} {z : List PyNum}
    {p m : List ℚ} {dH dCp : Option (List ℚ)} {ng : Option NightingaleData}
    {T T_ref : ℚ} {s : IonState} {w : List String}
    (h : Ion_init env name z p m dH dCp ng T T_ref = .ok (s, w)) :
    ∀ x ∈ s.z, x.val ≠ 0 := by
  obtain ⟨s1, w1, hta, hs, -, -, -, -⟩ := Ion_init_ok h
  obtain ⟨hz, -, -⟩ := temperature_adjust_ok hta
  obtain ⟨h1, -, -, -, a, b, -, -, hrun⟩ := z_sort_ok hz
  intro x hx
  have hxz : x ∈ s1.z := by rw [hs] at hx; exact hx
  exact valsMatchRun_no_zero hrun x (h1 ▸ hxz)

/-- C8 : for every validly constructed Ion and every pH, the per-state
division by `z` inside `diffusivity(pH)` never divides by zero: the
validated charge list contains no zero-valued element, so the
`zeroCharge` error is unreachable. -/
theorem C8_diffusivity_never_divides_by_zero
    (env : Env) (name : String) (z : List PyNum) (p m : List ℚ)
    (dH dCp : Option (List ℚ)) (ng : Option NightingaleData) (T T_ref : ℚ)
    (s : IonState) (w : List String)
    (h : Ion_init env name z p m dH dCp ng T T_ref = .ok (s, w)) (pH : ℚ) :
    diffusivity env s pH ≠ .error DiffErr.zeroCharge := by
  have hz := Ion_init_no_zero h
  unfold diffusivity
  have hany : (zip3 s.absolute_mobility (env.ionization_fraction s pH)
      s.z).any (fun t => t.2.2.val == 0) = false := by
    rw [List.any_eq_false]
    intro t ht
    simpa using hz t.2.2 (mem_zip3_trd ht)
  rw [if_neg (by simp [hany])]
  split <;> simp

/-- Witness for C8 at the acetic-acid example. -/
theorem C8_diffusivity_never_divides_by_zero_witness :
    (Ion_init envW "acetic" [.int (-1)] [476/100] [-(424 : ℚ)/10^10]
      none none none 25 25 = .ok (sAcetic, [])) ∧
    diffusivity envW sAcetic 7 ≠ .error DiffErr.zeroCharge :=
  ⟨by decide,
   C8_diffusivity_never_divides_by_zero envW "acetic" [.int (-1)]
     [476/100] [-(424 : ℚ)/10^10] none none none 25 25 sAcetic []
     (by decide) 7⟩

/-- C1 (amended): after a successful construction, every charge-mobility
pair with a nonzero mobility has `sign(mobility) = sign(charge)`; whenever
the copysign test fails, every mobility is coerced to the sign of its
charge and the non-fatal warning is returned (the sign-fixing step can
never raise); and the specification's example (`z=[1]`,
`absolute_mobility_ref=[-5e-8]`) constructs successfully with the mobility
coerced to `5e-8` and the warning emitted. -/
theorem C1_sign_consistency :
    (∀ (env : Env) (name : String) (z : List PyNum) (p m : List ℚ)
        (dH dCp : Option (List ℚ)) (ng : Option NightingaleData)
        (T T_ref : ℚ) (s : IonState) (w : List String),
      Ion_init env name z p m dH dCp ng T T_ref = .ok (s, w) →
      ∀ t ∈ s.z.zip s.absolute_mobility, t.2 ≠ 0 →
        signQ t.2 = signQ t.1.val) ∧
    (∀ (z : List PyNum) (m : List ℚ), signAllOk z m = false →
      signFix z m = ((z.zip m).map (fun t => pycopysign t.2 t.1.val),
        ["Mobility signs and charge signs don't match."])) ∧
    (Ion_init envW "a" [.int 1] [5] [-(5 : ℚ)/10^8] none none none 25 25 =
      .ok (sExA, ["Mobility signs and charge signs don't match."])) ∧
    sExA.absolute_mobility = [(5 : ℚ)/10^8] := by
  refine ⟨?_, ?_, by decide, by decide⟩
  · intro env name z p m dH dCp ng T T_ref s w h t ht hne
    obtain ⟨s1, w1, hta, hs, -, -, -, -⟩ := Ion_init_ok h
    have hz0 : ∀ x ∈ s1.z, x.val ≠ 0 := by
      have h4 := Ion_init_no_zero h
      intro x hx
      apply h4
      rw [hs]
      exact hx
    rw [hs] at ht
    exact signFix_sign hz0 t ht hne
  · intro z m hbad
    unfold signFix
    rw [if_neg (by simp [hbad])]

/-- Witness for C1 at the coerced example: the general sign property
applied to the constructed state. -/
theorem C1_sign_consistency_witness :
    (Ion_init envW "a" [.int 1] [5] [-(5 : ℚ)/10^8] none none none 25 25 =
      .ok (sExA, ["Mobility signs and charge signs don't match."])) ∧
    signQ ((5 : ℚ)/10^8) = signQ (PyNum.int 1).val :=
  ⟨by decide,
   C1_sign_consistency.1 envW "a" [.int 1] [5] [-(5 : ℚ)/10^8]
     none none none 25 25 sExA
     ["Mobility signs and charge signs don't match."] (by decide)
     (PyNum.int 1, (5 : ℚ)/10^8) (by decide) (by norm_num)⟩

/-- Counterexample to C1 as stated: constructing with a zero reference
mobility for charge `+1` succeeds with no warning, leaves
`absolute_mobility = [0]`, and `sign(0) = 0` differs from
`sign(1) = 1`. -/
theorem C1_zero_mobility_counterexample :
    Ion_init envW "zm" [.int 1] [5] [0] none none none 25 25 =
      .ok (sZeroMob, []) ∧
    sZeroMob.absolute_mobility = [0] ∧
    signQ 0 ≠ signQ (PyNum.int 1).val := by
  exact ⟨by decide, by decide, by decide⟩

theorem mem_intRange {a b n : ℤ} : n ∈ intRange a b ↔ a ≤ n ∧ n ≤ b := by
  simp only [intRange, List.mem_map, List.mem_range]
  constructor
  · rintro ⟨k, hk, rfl⟩
    omega
  · intro h
    exact ⟨(n - a).toNat, by omega, by omega⟩

theorem valsMatchRun_iff {z1 : List PyNum} {full : List ℤ}
    (h : valsMatchRun z1 full = true) :
    ∀ q : ℚ, q ∈ z1.map PyNum.val ↔ ∃ n ∈ full, (n : ℚ) = q := by
  unfold valsMatchRun at h
  rw [Bool.and_eq_true, List.all_eq_true, List.all_eq_true] at h
  obtain ⟨h1, h2⟩ := h
  intro q
  constructor
  · intro hq
    have h3 := h1 q hq
    rw [List.any_eq_true] at h3
    obtain ⟨n, hn, he⟩ := h3
    exact ⟨n, hn, by rwa [beq_iff_eq] at he⟩
  · rintro ⟨n, hn, rfl⟩
    have h3 := h2 n hn
    rw [List.any_eq_true] at h3
    obtain ⟨v, hv, he⟩ := h3
    rw [beq_iff_eq] at he
    rw [← he]
    exact hv

/-- C5 (amended): for every successfully constructed Ion the value set of
`z` is exactly the integer run from `min(z)` to `max(z)` with `0`
excluded; a gap in the run (`z=[-2,1]`) raises the charge-states-missing
assertion; a non-integer element of `z` raises (a `TypeError` from
`range`, or the non-integer assertion when `min` and `max` are integral);
but a `pKa_ref` or mobility list whose length differs from `len(z)` does
not raise in general: the lists are silently truncated to the shortest,
as the successful `z=[1,2]`, `pKa_ref=[5]` construction shows. -/
theorem C5_charge_contiguity :
    (∀ (env : Env) (name : String) (z : List PyNum) (p m : List ℚ)
        (dH dCp : Option (List ℚ)) (ng : Option NightingaleData)
        (T T_ref : ℚ) (s : IonState) (w : List String),
      Ion_init env name z p m dH dCp ng T T_ref = .ok (s, w) →
      ∃ a b : ℤ, (minP s.z).val = (a : ℚ) ∧ (maxP s.z).val = (b : ℚ) ∧
        ∀ q : ℚ, (q ∈ s.z.map PyNum.val ↔
          ∃ n : ℤ, a ≤ n ∧ n ≤ b ∧ n ≠ 0 ∧ (n : ℚ) = q)) ∧
    (Ion_init envW "g" [.int (-2), .int 1] [1, 2]
        [-(1 : ℚ)/10^8, (1 : ℚ)/10^8] none none none 25 25 =
      .error (.assertError "Charge states missing.")) ∧
    (Ion_init envW "f" [.float (3/2)] [1] [(1 : ℚ)/10^8]
        none none none 25 25 =
      .error (.typeError "object cannot be interpreted as an integer")) ∧
    (Ion_init envW "fi" [.int 1, .float 2, .int 3] [1, 2, 3]
        [(1 : ℚ)/10^8, (2 : ℚ)/10^8, (3 : ℚ)/10^8] none none none 25 25 =
      .error (.assertError "z contains non-integer")) ∧
    (Ion_init envW "x" [.int 1, .int 2] [5] [(1 : ℚ)/10^8]
        none none none 25 25 = .ok (sTrunc, [])) := by
  refine ⟨?_, by decide, by decide, by decide, by decide⟩
  intro env name z p m dH dCp ng T T_ref s w h
  obtain ⟨s1, w1, hta, hs, -, -, -, -⟩ := Ion_init_ok h
  obtain ⟨hz, -, -⟩ := temperature_adjust_ok hta
  obtain ⟨h1, -, -, -, a, b, hmin, hmax, hrun⟩ := z_sort_ok hz
  have hsz : s.z = s1.z := by rw [hs]
  refine ⟨a, b, ?_, ?_, ?_⟩
  · rw [hsz, h1, hmin]
    rfl
  · rw [hsz, h1, hmax]
    rfl
  · intro q
    rw [hsz, h1, valsMatchRun_iff hrun q]
    constructor
    · rintro ⟨n, hn, rfl⟩
      rw [List.mem_filter] at hn
      have h4 := mem_intRange.mp hn.1
      exact ⟨n, h4.1, h4.2, by simpa using hn.2, rfl⟩
    · rintro ⟨n, hle, hge, hnz, rfl⟩
      exact ⟨n, List.mem_filter.mpr
        ⟨mem_intRange.mpr ⟨hle, hge⟩, by simpa using hnz⟩, rfl⟩

/-- Witness for C5 at the acetic-acid example. -/
theorem C5_charge_contiguity_witness :
    (Ion_init envW "acetic" [.int (-1)] [476/100] [-(424 : ℚ)/10^10]
      none none none 25 25 = .ok (sAcetic, [])) ∧
    ∃ a b : ℤ, (minP sAcetic.z).val = (a : ℚ) ∧
      (maxP sAcetic.z).val = (b : ℚ) ∧
      ∀ q : ℚ, (q ∈ sAcetic.z.map PyNum.val ↔
        ∃ n : ℤ, a ≤ n ∧ n ≤ b ∧ n ≠ 0 ∧ (n : ℚ) = q) :=
  ⟨by decide,
   C5_charge_contiguity.1 envW "acetic" [.int (-1)] [476/100]
     [-(424 : ℚ)/10^10] none none none 25 25 sAcetic [] (by decide)⟩

/-- Counterexample to C5 as stated: a `pKa_ref` list shorter than `z`
does not raise a validation error; construction succeeds, with `z`
silently truncated to `[1]`. -/
theorem C5_length_mismatch_counterexample :
    Ion_init envW "x" [.int 1, .int 2] [5] [(1 : ℚ)/10^8]
      none none none 25 25 = .ok (sTrunc, []) ∧
    sTrunc.z = [.int 1] :=
  ⟨by decide, by decide⟩

/-- C3 : constructing with `T == T_ref`, with `z` already sorted ascending
(strictly, as the data model's charge states are distinct), with mobility
signs matching charge signs, and with reference lists of matching lengths,
yields `pKa = pKa_ref` and `absolute_mobility = absolute_mobility_ref`
exactly, elementwise. -/
theorem C3_reference_equality_at_T_ref
    (env : Env) (name : String) (z : List PyNum) (p m : List ℚ)
    (dH dCp : Option (List ℚ)) (ng : Option NightingaleData) (T T_ref : ℚ)
    (s : IonState) (w : List String)
    (hT : T = T_ref)
    (hc : z.Chain' (fun x y => x.val < y.val))
    (hlp : p.length = z.length) (hlm : m.length = z.length)
    (hsign : signAllOk z m = true)
    (h : Ion_init env name z p m dH dCp ng T T_ref = .ok (s, w)) :
    s.pKa = p ∧ s.absolute_mobility = m := by
  obtain ⟨s1, w1, hta, hs, -, -, -, -⟩ := Ion_init_ok h
  obtain ⟨hz, -, -⟩ := temperature_adjust_ok hta
  have hpa : pKa_adjusted env (init_state name z p m dH dCp ng T T_ref) = p := by
    unfold pKa_adjusted init_state
    simp [hT]
  have hma : mobility_adjusted env
      (init_state name z p m dH dCp ng T T_ref) = m := by
    unfold mobility_adjusted init_state
    simp [hT]
  rw [hpa, hma] at hz
  have hz2 : z_sort z p m = .ok (s1.z, s1.pKa, s1.absolute_mobility) := hz
  obtain ⟨h1, h2, h3, -, -⟩ := z_sort_ok hz2
  have hsorted : insertionSortLex (zip3 z p m) = zip3 z p m :=
    insertionSortLex_eq_self _ (zip3_chain p m hc)
  have hz1 : s1.z = z := by
    rw [h1, hsorted, zip3_map_fst_of_len z p m hlp hlm]
  have hp1 : s1.pKa = p := by
    rw [h2, hsorted, zip3_map_snd_of_len z p m hlp hlm]
  have hm1 : s1.absolute_mobility = m := by
    rw [h3, hsorted, zip3_map_trd_of_len z p m hlp hlm]
  have hfix : (signFix s1.z s1.absolute_mobility).1 = m := by
    rw [hz1, hm1]
    unfold signFix
    rw [if_pos hsign]
  constructor
  · rw [hs]
    exact hp1
  · rw [hs]
    exact hfix

/-- Witness for C3 at the acetic-acid example. -/
theorem C3_reference_equality_at_T_ref_witness :
    (Ion_init envW "acetic" [.int (-1)] [476/100] [-(424 : ℚ)/10^10]
      none none none 25 25 = .ok (sAcetic, [])) ∧
    sAcetic.pKa = [476/100] ∧
    sAcetic.absolute_mobility = [-(424 : ℚ)/10^10] :=
  ⟨by decide,
   C3_reference_equality_at_T_ref envW "acetic" [.int (-1)] [476/100]
     [-(424 : ℚ)/10^10] none none none 25 25 sAcetic [] rfl
     (List.chain'_singleton _) (by decide) (by decide) (by decide)
     (by decide)⟩

/-- C2 (amended): for every Ion constructed with `z` strictly ascending
and with no mobility-sign coercion (the sign warning absent from the
construction warnings), `set_T(ion.T)` recomputes exactly the same state:
`pKa`, `absolute_mobility` and `z0` (indeed every field) are unchanged.
The in-place mutation and `return self` are modelled by `set_T` returning
the updated state.  When the construction coerced a mobility sign, or when
`z` was supplied unsorted, `set_T(ion.T)` re-reads the unsorted, uncoerced
reference lists and the derived fields change. -/
theorem C2_set_T_idempotent
    (env : Env) (name : String) (z : List PyNum) (p m : List ℚ)
    (dH dCp : Option (List ℚ)) (ng : Option NightingaleData) (T T_ref : ℚ)
    (s : IonState) (w : List String)
    (hc : z.Chain' (fun x y => x.val < y.val))
    (h : Ion_init env name z p m dH dCp ng T T_ref = .ok (s, w))
    (hw : "Mobility signs and charge signs don't match." ∉ w) :
    ∃ w2, set_T env s s.T = .ok (s, w2) := by
  obtain ⟨s1, w1, hta, hs, hwdef, -, -, -⟩ := Ion_init_ok h
  obtain ⟨hzs, hs1, -⟩ := temperature_adjust_ok hta
  have hok : signAllOk s1.z s1.absolute_mobility = true := by
    by_contra hbad
    have hbad2 : signAllOk s1.z s1.absolute_mobility = false :=
      Bool.eq_false_iff.mpr hbad
    have hmsg : (signFix s1.z s1.absolute_mobility).2 =
        ["Mobility signs and charge signs don't match."] := by
      unfold signFix
      rw [if_neg (by simp [hbad2])]
    apply hw
    rw [hwdef, hmsg]
    exact List.mem_append_right _ (by simp)
  have hfix1 : (signFix s1.z s1.absolute_mobility).1 =
      s1.absolute_mobility := by
    unfold signFix
    rw [if_pos hok]
  have hss : s = s1 := by
    rw [hs, hfix1]
  have hT2 : s.T = T := by rw [hss, hs1]; rfl
  have hTr2 : s.T_ref = T_ref := by rw [hss, hs1]; rfl
  have hpref2 : s.pKa_ref = p := by rw [hss, hs1]; rfl
  have hmref2 : s.absolute_mobility_ref = m := by rw [hss, hs1]; rfl
  have hdH2 : s.dH = dH := by rw [hss, hs1]; rfl
  have hdCp2 : s.dCp = dCp := by rw [hss, hs1]; rfl
  have hng2 : s.nightingale_data = ng := by rw [hss, hs1]; rfl
  have hzz : s.z = s1.z := by rw [hss]
  have hpp : s.pKa = s1.pKa := by rw [hss]
  have hmm2 : s.absolute_mobility = s1.absolute_mobility := by rw [hss]
  have hz0 : s.z0 = set_z0 s.z := by rw [hss, hs1]
  have hz2 : z_sort z
      (pKa_adjusted env (init_state name z p m dH dCp ng T T_ref))
      (mobility_adjusted env (init_state name z p m dH dCp ng T T_ref)) =
      .ok (s1.z, s1.pKa, s1.absolute_mobility) := hzs
  obtain ⟨h1, h2, h3, hne, a, b, hmin, hmax, hrun⟩ := z_sort_ok hz2
  have hchain : (zip3 z
      (pKa_adjusted env (init_state name z p m dH dCp ng T T_ref))
      (mobility_adjusted env
        (init_state name z p m dH dCp ng T T_ref))).Chain' lexLe :=
    zip3_chain _ _ hc
  have hsorted : insertionSortLex (zip3 z
      (pKa_adjusted env (init_state name z p m dH dCp ng T T_ref))
      (mobility_adjusted env (init_state name z p m dH dCp ng T T_ref))) =
      zip3 z (pKa_adjusted env (init_state name z p m dH dCp ng T T_ref))
        (mobility_adjusted env (init_state name z p m dH dCp ng T T_ref)) :=
    insertionSortLex_eq_self _ hchain
  have h1s : s1.z = (zip3 z
      (pKa_adjusted env (init_state name z p m dH dCp ng T T_ref))
      (mobility_adjusted env
        (init_state name z p m dH dCp ng T T_ref))).map (fun t => t.1) := by
    rw [h1, hsorted]
  have hP : pKa_adjusted env s =
      pKa_adjusted env (init_state name z p m dH dCp ng T T_ref) := by
    simp only [pKa_adjusted, init_state]
    rw [hT2, hTr2, hpref2, hdH2, hdCp2]
  have hZ : zip3 s.z (pKa_adjusted env s) (mobility_adjusted env s) =
      zip3 z (pKa_adjusted env (init_state name z p m dH dCp ng T T_ref))
        (mobility_adjusted env
          (init_state name z p m dH dCp ng T T_ref)) := by
    by_cases hTT : T = T_ref
    · have hMs : mobility_adjusted env s = m := by
        simp only [mobility_adjusted]
        rw [hT2, hTr2, if_pos hTT, hmref2]
      have hM0 : mobility_adjusted env
          (init_state name z p m dH dCp ng T T_ref) = m := by
        simp only [mobility_adjusted, init_state]
        rw [if_pos hTT]
      rw [hP, hMs, hzz, h1s, hM0]
      exact zip3_fst_zip3 z _ m
    · cases hngc : ng with
      | none =>
          rw [← hngc]
          have hMs : mobility_adjusted env s =
              m.map (fun x => env.viscosity T_ref / env.viscosity T * x) := by
            simp only [mobility_adjusted]
            rw [hT2, hTr2, if_neg hTT, hng2, hngc, hmref2]
          have hM0 : mobility_adjusted env
              (init_state name z p m dH dCp ng T T_ref) =
              m.map (fun x => env.viscosity T_ref / env.viscosity T * x) := by
            simp only [mobility_adjusted, init_state]
            rw [if_neg hTT, hngc]
          rw [hP, hMs, hzz, h1s, hM0]
          exact zip3_fst_zip3 z _ _
      | some nd =>
          rw [← hngc]
          have hsT : s.T ≠ s.T_ref := by rw [hT2, hTr2]; exact hTT
          have hsng : s.nightingale_data = some nd := by rw [hng2, hngc]
          have hsT0 : (init_state name z p m dH dCp ng T T_ref).T ≠
              (init_state name z p m dH dCp ng T T_ref).T_ref := hTT
          have hsng0 :
              (init_state name z p m dH dCp ng T T_ref).nightingale_data =
              some nd := hngc
          by_cases htr : poly1d_truthy nd.fit = true
          · have hMs : mobility_adjusted env s =
                s.z.map (fun zi =>
                  polyval nd.fit T * (1035 / 10 ^ 13) * zi.val /
                    env.viscosity T) := by
              rw [mobility_adjusted_ng hsT hsng htr, hT2]
            have hM0 : mobility_adjusted env
                (init_state name z p m dH dCp ng T T_ref) =
                z.map (fun zi =>
                  polyval nd.fit T * (1035 / 10 ^ 13) * zi.val /
                    env.viscosity T) := by
              rw [mobility_adjusted_ng hsT0 hsng0 htr]
              rfl
            rw [hP, hMs, hzz, h1s, hM0]
            exact zip3_fst_map_f _ z _
          · have htrf : poly1d_truthy nd.fit = false :=
              Bool.eq_false_iff.mpr htr
            have hMs : mobility_adjusted env s =
                m.map (fun x => env.viscosity T_ref / env.viscosity T * x) := by
              rw [mobility_adjusted_falsy hsT hsng htrf, hmref2, hTr2, hT2]
            have hM0 : mobility_adjusted env
                (init_state name z p m dH dCp ng T T_ref) =
                m.map (fun x => env.viscosity T_ref / env.viscosity T * x) := by
              rw [mobility_adjusted_falsy hsT0 hsng0 htrf]
              rfl
            rw [hP, hMs, hzz, h1s, hM0]
            exact zip3_fst_zip3 z _ _
  have hsorted2 : insertionSortLex
      (zip3 s.z (pKa_adjusted env s) (mobility_adjusted env s)) =
      zip3 z (pKa_adjusted env (init_state name z p m dH dCp ng T T_ref))
        (mobility_adjusted env
          (init_state name z p m dH dCp ng T T_ref)) := by
    rw [hZ, hsorted]
  have hne2 : (zip3 s.z (pKa_adjusted env s)
      (mobility_adjusted env s)).isEmpty = false := by
    rw [hZ]
    exact hne
  have hmin2 : minP ((insertionSortLex (zip3 s.z (pKa_adjusted env s)
      (mobility_adjusted env s))).map (fun t => t.1)) = .int a := by
    rw [hsorted2, ← hsorted]
    exact hmin
  have hmax2 : maxP ((insertionSortLex (zip3 s.z (pKa_adjusted env s)
      (mobility_adjusted env s))).map (fun t => t.1)) = .int b := by
    rw [hsorted2, ← hsorted]
    exact hmax
  have hrun2 : valsMatchRun ((insertionSortLex (zip3 s.z
      (pKa_adjusted env s) (mobility_adjusted env s))).map (fun t => t.1))
      ((intRange a b).filter (fun n => n ≠ 0)) = true := by
    rw [hsorted2, ← hsorted]
    exact hrun
  have hfin : z_sort s.z (pKa_adjusted env s) (mobility_adjusted env s) =
      .ok (s.z, s.pKa, s.absolute_mobility) := by
    have hbase := z_sort_ok_of_checks hne2 hmin2 hmax2 hrun2
    rw [hsorted2] at hbase
    rw [← hsorted, ← h1, ← h2, ← h3] at hbase
    rw [← hzz, ← hpp, ← hmm2] at hbase
    exact hbase
  have hrec :
      ({ s with z := s.z, pKa := s.pKa, absolute_mobility := s.absolute_mobility, z0 := set_z0 s.z } : IonState) = s := by
    rw [← hz0]
  have hfinal : temperature_adjust env s = .ok (s, adjust_warnings s) := by
    unfold temperature_adjust
    rw [hfin]
    exact congrArg (fun x => Except.ok (x, adjust_warnings s)) hrec
  exact ⟨adjust_warnings s, hfinal⟩

/-- Witness for C2 at the acetic-acid example. -/
theorem C2_set_T_idempotent_witness :
    (Ion_init envW "acetic" [.int (-1)] [476/100] [-(424 : ℚ)/10^10]
      none none none 25 25 = .ok (sAcetic, [])) ∧
    ∃ w2, set_T envW sAcetic sAcetic.T = .ok (sAcetic, w2) :=
  ⟨by decide,
   C2_set_T_idempotent envW "acetic" [.int (-1)] [476/100]
     [-(424 : ℚ)/10^10] none none none 25 25 sAcetic []
     (List.chain'_singleton _) (by decide) (by decide)⟩

/-- Counterexample to C2 as stated: for the sign-coerced example Ion
(`z=[1]`, `absolute_mobility_ref=[-5e-8]`, so `absolute_mobility=[5e-8]`
after construction), `set_T(ion.T)` re-reads the uncoerced reference list
and returns a state whose `absolute_mobility` is `[-5e-8]`, not the
constructed value. -/
theorem C2_set_T_counterexample :
    set_T envW sExA sExA.T =
      .ok ({ sExA with absolute_mobility := [-(5 : ℚ)/10^8] }, []) ∧
    ([-(5 : ℚ)/10^8] : List ℚ) ≠ sExA.absolute_mobility :=
  ⟨by decide, by decide⟩

theorem Ion_init_of_parts {env : Env} {name : String} {z : List PyNum}
    {p m : List ℚ} {dH dCp : Option (List ℚ)} {ng : Option NightingaleData}
    {T T_ref : ℚ} {s1 : IonState} {w1 : List String}
    (hta : temperature_adjust env (init_state name z p m dH dCp ng T T_ref) =
      .ok (s1, w1))
    (hint : s1.z.all PyNum.isInt = true)
    (hlp : s1.pKa.length = s1.z.length)
    (hlm : (signFix s1.z s1.absolute_mobility).1.length = s1.z.length) :
    Ion_init env name z p m dH dCp ng T T_ref =
      .ok ({ s1 with
              absolute_mobility := (signFix s1.z s1.absolute_mobility).1 },
           w1 ++ (signFix s1.z s1.absolute_mobility).2) := by
  unfold Ion_init
  rw [hta]
  show (if ¬ (s1.z.all PyNum.isInt = true) then
      Except.error (PyError.assertError "z contains non-integer")
    else if s1.pKa.length ≠ s1.z.length then
      Except.error (PyError.assertError "pKa is not the same length as z")
    else if (signFix s1.z s1.absolute_mobility).1.length ≠ s1.z.length then
      Except.error
        (PyError.assertError "absolute_mobility is not the same length as z")
    else
      Except.ok ({ s1 with
          absolute_mobility := (signFix s1.z s1.absolute_mobility).1 },
        w1 ++ (signFix s1.z s1.absolute_mobility).2)) = _
  rw [if_neg (by simp [hint]), if_neg (by simp [hlp]),
    if_neg (by simp [hlm])]

/-- C7 (amended): for an Ion constructed at `T = T_ref = 25` whose `z` was
supplied sorted ascending (strictly), constructing a new Ion from the
fields of the serialized record at `T = 25` reproduces `pKa`,
`absolute_mobility` and `z` exactly — including when the original
construction coerced mobility signs.  When the original `z` was unsorted,
the serialized record pairs the sorted `z` with the unsorted reference
lists and the round trip changes `pKa`. -/
theorem C7_round_trip_serialization
    (env : Env) (name : String) (z : List PyNum) (p m : List ℚ)
    (dH dCp : Option (List ℚ)) (ng : Option NightingaleData)
    (s : IonState) (w : List String)
    (hc : z.Chain' (fun x y => x.val < y.val))
    (h : Ion_init env name z p m dH dCp ng 25 25 = .ok (s, w)) :
    ∃ s2 w2,
      Ion_init env s.name s.z s.pKa_ref s.absolute_mobility_ref s.dH s.dCp
        s.nightingale_data 25 25 = .ok (s2, w2) ∧
      s2.pKa = s.pKa ∧ s2.absolute_mobility = s.absolute_mobility ∧
      s2.z = s.z := by
  obtain ⟨s1, w1, hta, hs, -, hint, hlp, hlm⟩ := Ion_init_ok h
  obtain ⟨hzs, hs1, -⟩ := temperature_adjust_ok hta
  have hname : s.name = name := by rw [hs, hs1]; rfl
  have hpref : s.pKa_ref = p := by rw [hs, hs1]; rfl
  have hmref : s.absolute_mobility_ref = m := by rw [hs, hs1]; rfl
  have hdH2 : s.dH = dH := by rw [hs, hs1]; rfl
  have hdCp2 : s.dCp = dCp := by rw [hs, hs1]; rfl
  have hng2 : s.nightingale_data = ng := by rw [hs, hs1]; rfl
  have hzz : s.z = s1.z := by rw [hs]
  have hpka : s.pKa = s1.pKa := by rw [hs]
  have hmob : s.absolute_mobility = (signFix s1.z s1.absolute_mobility).1 := by
    rw [hs]
  have hPp : pKa_adjusted env (init_state name z p m dH dCp ng 25 25) = p := by
    simp [pKa_adjusted, init_state]
  have hMm : mobility_adjusted env (init_state name z p m dH dCp ng 25 25) =
      m := by
    simp [mobility_adjusted, init_state]
  rw [hPp, hMm] at hzs
  have hz2 : z_sort z p m = .ok (s1.z, s1.pKa, s1.absolute_mobility) := hzs
  obtain ⟨h1, h2, h3, hne, a, b, hmin, hmax, hrun⟩ := z_sort_ok hz2
  have hsorted : insertionSortLex (zip3 z p m) = zip3 z p m :=
    insertionSortLex_eq_self _ (zip3_chain p m hc)
  have h1s : s1.z = (zip3 z p m).map (fun t => t.1) := by rw [h1, hsorted]
  have hZ : zip3 s1.z p m = zip3 z p m := by
    rw [h1s]
    exact zip3_fst_zip3 z p m
  have hsorted2 : insertionSortLex (zip3 s1.z p m) = zip3 z p m := by
    rw [hZ, hsorted]
  have hne2 : (zip3 s1.z p m).isEmpty = false := by
    rw [hZ]
    exact hne
  have hmin2 : minP ((insertionSortLex (zip3 s1.z p m)).map (fun t => t.1)) =
      .int a := by
    rw [hsorted2, ← hsorted]
    exact hmin
  have hmax2 : maxP ((insertionSortLex (zip3 s1.z p m)).map (fun t => t.1)) =
      .int b := by
    rw [hsorted2, ← hsorted]
    exact hmax
  have hrun2 : valsMatchRun
      ((insertionSortLex (zip3 s1.z p m)).map (fun t => t.1))
      ((intRange a b).filter (fun n => n ≠ 0)) = true := by
    rw [hsorted2, ← hsorted]
    exact hrun
  have hz3 : z_sort s1.z p m = .ok (s1.z, s1.pKa, s1.absolute_mobility) := by
    have hbase := z_sort_ok_of_checks hne2 hmin2 hmax2 hrun2
    rw [hsorted2, ← hsorted, ← h1, ← h2, ← h3] at hbase
    exact hbase
  have hta2 : temperature_adjust env
      (init_state name s1.z p m dH dCp ng 25 25) =
      .ok ({ init_state name s1.z p m dH dCp ng 25 25 with
              z := s1.z, pKa := s1.pKa,
              absolute_mobility := s1.absolute_mobility,
              z0 := set_z0 s1.z },
           adjust_warnings (init_state name s1.z p m dH dCp ng 25 25)) := by
    unfold temperature_adjust
    have e : z_sort (init_state name s1.z p m dH dCp ng 25 25).z
        (pKa_adjusted env (init_state name s1.z p m dH dCp ng 25 25))
        (mobility_adjusted env (init_state name s1.z p m dH dCp ng 25 25)) =
        .ok (s1.z, s1.pKa, s1.absolute_mobility) := by
      have hPp2 : pKa_adjusted env
          (init_state name s1.z p m dH dCp ng 25 25) = p := by
        simp [pKa_adjusted, init_state]
      have hMm2 : mobility_adjusted env
          (init_state name s1.z p m dH dCp ng 25 25) = m := by
        simp [mobility_adjusted, init_state]
      rw [hPp2, hMm2]
      exact hz3
    rw [e]
  have hinit2 := Ion_init_of_parts hta2 hint hlp hlm
  rw [hname, hzz, hpka, hmob, hpref, hmref, hdH2, hdCp2, hng2]
  exact ⟨_, _, hinit2, rfl, rfl, rfl⟩

/-- Witness for C7 at the coerced spec example (`z=[1]`,
`absolute_mobility_ref=[-5e-8]`). -/
theorem C7_round_trip_serialization_witness :
    (Ion_init envW "a" [.int 1] [5] [-(5 : ℚ)/10^8] none none none 25 25 =
      .ok (sExA, ["Mobility signs and charge signs don't match."])) ∧
    ∃ s2 w2,
      Ion_init envW sExA.name sExA.z sExA.pKa_ref sExA.absolute_mobility_ref
        sExA.dH sExA.dCp sExA.nightingale_data 25 25 = .ok (s2, w2) ∧
      s2.pKa = sExA.pKa ∧ s2.absolute_mobility = sExA.absolute_mobility ∧
      s2.z = sExA.z :=
  ⟨by decide,
   C7_round_trip_serialization envW "a" [.int 1] [5] [-(5 : ℚ)/10^8]
     none none none sExA ["Mobility signs and charge signs don't match."]
     (List.chain'_singleton _) (by decide)⟩

/-- Counterexample to C7 as stated: constructing with unsorted `z=[2,1]`,
`pKa_ref=[7,3]` gives `pKa=[3,7]`, but reconstructing from the serialized
fields (sorted `z=[1,2]` with the stored constructor-order `pKa_ref=[7,3]`)
gives `pKa=[7,3]`, which differs. -/
theorem C7_round_trip_counterexample :
    (Ion_init envW "u" [.int 2, .int 1] [7, 3]
      [(2 : ℚ)/10^8, (1 : ℚ)/10^8] none none none 25 25 =
      .ok (sUnsorted, [])) ∧
    (Ion_init envW sUnsorted.name sUnsorted.z sUnsorted.pKa_ref
      sUnsorted.absolute_mobility_ref sUnsorted.dH sUnsorted.dCp
      sUnsorted.nightingale_data 25 25 = .ok (sUnsortedRT, [])) ∧
    sUnsortedRT.pKa ≠ sUnsorted.pKa :=
  ⟨by decide, by decide, by decide⟩

set_option maxHeartbeats 1600000 in
/-- C4 (amended): with nightingale data present, `T ≠ T_ref` and `z`
sorted ascending (so that states keep their positions), when the fitted
polynomial has positive degree — `np.poly1d` is truthy — each adjusted
mobility equals the fitted polynomial at `T`, times the constant
`1.035e-10`, times the charge `z[i]` itself — not `sign(z[i])` — divided
by the solvent viscosity at `T`, and when `T` lies outside the calibration
range the non-fatal warning is emitted while the extrapolated value is
still returned; for a constant (degree-0) fit the `poly1d` object is
falsy, so the code silently takes the Walden viscosity-ratio branch and
the out-of-range warning is unreachable. -/
theorem C4_nightingale_mobility
    (env : Env) (s : IonState) (nd : NightingaleData) (s2 : IonState)
    (w : List String)
    (hng : s.nightingale_data = some nd)
    (hT : s.T ≠ s.T_ref)
    (hc : s.z.Chain' (fun x y => x.val < y.val))
    (h : temperature_adjust env s = .ok (s2, w)) :
    (poly1d_truthy nd.fit = true →
      (∀ t ∈ s2.z.zip s2.absolute_mobility,
        t.2 = polyval nd.fit s.T * (1035 / 10 ^ 13) * t.1.val /
          env.viscosity s.T) ∧
      ((s.T > nd.max ∨ s.T < nd.min) →
        "Temperature outside rangefor nightingale data." ∈ w)) ∧
    (poly1d_truthy nd.fit = false →
      (∀ x ∈ s2.absolute_mobility, ∃ m0 ∈ s.absolute_mobility_ref,
        x = env.viscosity s.T_ref / env.viscosity s.T * m0) ∧
      w = []) := by
  obtain ⟨hzs, hs2, hwa⟩ := temperature_adjust_ok h
  constructor
  · intro htr
    have hM : mobility_adjusted env s =
        s.z.map (fun zi => polyval nd.fit s.T * (1035 / 10 ^ 13) * zi.val /
          env.viscosity s.T) := mobility_adjusted_ng hT hng htr
    rw [hM] at hzs
    obtain ⟨h1, -, h3, -, -⟩ := z_sort_ok hzs
    have hsorted : insertionSortLex (zip3 s.z (pKa_adjusted env s)
        (s.z.map (fun zi => polyval nd.fit s.T * (1035 / 10 ^ 13) * zi.val /
          env.viscosity s.T))) =
        zip3 s.z (pKa_adjusted env s)
          (s.z.map (fun zi => polyval nd.fit s.T * (1035 / 10 ^ 13) * zi.val /
            env.viscosity s.T)) :=
      insertionSortLex_eq_self _ (zip3_chain _ _ hc)
    rw [hsorted] at h1 h3
    constructor
    · intro t ht
      rw [h1, h3, List.zip_map'] at ht
      rw [List.mem_map] at ht
      obtain ⟨u, hu, hut⟩ := ht
      have hf := zip3_trd_of_map (fun (zi : PyNum) =>
        polyval nd.fit s.T * (1035 / 10 ^ 13) * zi.val / env.viscosity s.T) hu
      rw [← hut]
      exact hf
    · intro hout
      rw [hwa, adjust_warnings_ng hT hng htr, if_pos hout]
      simp
  · intro htr
    have hM : mobility_adjusted env s =
        s.absolute_mobility_ref.map
          (fun m => env.viscosity s.T_ref / env.viscosity s.T * m) :=
      mobility_adjusted_falsy hT hng htr
    rw [hM] at hzs
    obtain ⟨-, -, h3, -, -⟩ := z_sort_ok hzs
    have hsorted : insertionSortLex (zip3 s.z (pKa_adjusted env s)
        (s.absolute_mobility_ref.map
          (fun m => env.viscosity s.T_ref / env.viscosity s.T * m))) =
        zip3 s.z (pKa_adjusted env s)
          (s.absolute_mobility_ref.map
            (fun m => env.viscosity s.T_ref / env.viscosity s.T * m)) :=
      insertionSortLex_eq_self _ (zip3_chain _ _ hc)
    rw [hsorted] at h3
    constructor
    · intro x hx
      rw [h3] at hx
      simp only [List.mem_map] at hx
      obtain ⟨t, ht, hxt⟩ := hx
      have hmem := mem_zip3_trd ht
      simp only [List.mem_map] at hmem
      obtain ⟨m0, hm0, hm0x⟩ := hmem
      refine ⟨m0, hm0, ?_⟩
      rw [← hxt, ← hm0x]
    · rw [hwa]
      exact adjust_warnings_falsy hT hng htr

/-- Witness for C4 at the monovalent nightingale example with a truthy
(degree-1) fit. -/
theorem C4_nightingale_mobility_witness :
    (temperature_adjust envW sNgIn = .ok (sNgAdj, [])) ∧
    (sNgIn.nightingale_data = some ngLin) ∧ sNgIn.T ≠ sNgIn.T_ref ∧
    poly1d_truthy ngLin.fit = true ∧
    ∀ t ∈ sNgAdj.z.zip sNgAdj.absolute_mobility,
      t.2 = polyval ngLin.fit sNgIn.T * (1035 / 10 ^ 13) * t.1.val /
        envW.viscosity sNgIn.T :=
  ⟨by decide, by decide, by decide, by decide,
   ((C4_nightingale_mobility envW sNgIn ngLin sNgAdj [] (by decide)
     (by decide) (List.chain'_singleton _) (by decide)).1 (by decide)).1⟩

/-- Counterexample to C4 as stated: for charge `+2` the adjusted mobility
is the polynomial value scaled by the charge `2` (giving `2.07e-10`), not
by `sign(z) = 1` (which would give `1.035e-10`). -/
theorem C4_nightingale_counterexample :
    (temperature_adjust envW sNg2In = .ok (sNg2Adj, [])) ∧
    sNg2Adj.absolute_mobility ≠
      nightingale_mobility_claimed envW ngLin 30 sNg2Adj.z :=
  ⟨by decide, by decide⟩

theorem escapeJSON_cons (c : Char) (cs : List Char) :
    escapeJSON (c :: cs) =
      (if c = quoteChar ∨ c = backslashChar then [backslashChar, c]
       else [c]) ++ escapeJSON cs := by
  simp [escapeJSON]

theorem decodeStrTail_escape (s : List Char) :
    decodeStrTail (escapeJSON s ++ [quoteChar]) = some s := by
  induction s with
  | nil =>
      show decodeStrTail (escapeJSON [] ++ [quoteChar]) = some []
      simp [escapeJSON, decodeStrTail]
      decide
  | cons c cs ih =>
      rw [escapeJSON_cons]
      by_cases hc : c = quoteChar ∨ c = backslashChar
      · rw [if_pos hc]
        show decodeStrTail
          (backslashChar :: c :: (escapeJSON cs ++ [quoteChar])) = _
        unfold decodeStrTail
        rw [if_pos rfl]
        show Option.map (fun r => c :: r)
          (decodeStrTail (escapeJSON cs ++ [quoteChar])) = some (c :: cs)
        rw [ih]
        rfl
      · rw [if_neg hc]
        push_neg at hc
        show decodeStrTail (c :: (escapeJSON cs ++ [quoteChar])) = _
        unfold decodeStrTail
        rw [if_neg hc.2, if_neg hc.1]
        show Option.map (fun r => c :: r)
          (decodeStrTail (escapeJSON cs ++ [quoteChar])) = some (c :: cs)
        rw [ih]
        rfl

theorem jsonTopKind_quote (l : List Char) :
    jsonTopKind (quoteChar :: l) = JKind.stringK := rfl

theorem jsonTopKind_lbrace (l : List Char) :
    jsonTopKind (lbraceChar :: l) = JKind.objectK := rfl

/-- C9 : `save` writes `json.dump(serialize(), file)` where `serialize()`
is already JSON text, so the file holds a doubly-encoded record: the file
content is the JSON string literal whose content is the `serialize` text;
parsing the file with a JSON parser therefore yields a string (the inner
JSON text of the record), not a structured object, while the inner text
itself is object-shaped. -/
theorem C9_save_double_encodes (env : Env) (s : IonState) :
    save env s = quoteChar :: escapeJSON (serialize env s) ++ [quoteChar] ∧
    decodeJSONString (save env s) = some (serialize env s) ∧
    jsonTopKind (save env s) = JKind.stringK ∧
    jsonTopKind (serialize env s) = JKind.objectK := by
  refine ⟨rfl, ?_, ?_, ?_⟩
  · exact decodeStrTail_escape _
  · exact jsonTopKind_quote _
  · exact jsonTopKind_lbrace _

theorem rb25 : robinson_stokes_body envW sRS 1 25 =
    [(1 : ℝ)/10^8 -
      ((2297/10^4) * ((1 : ℝ)/10^8) + 3141/10^11) * 1 / (1 + 3/2 * 1)] := by
  unfold robinson_stokes_body
  simp only [envW, sRS, pysign1, PyNum.val]
  norm_num [Real.sqrt_one, Real.one_rpow]

theorem rb0 : robinson_stokes_body envW sRS 1 0 =
    [(1 : ℝ)/10^8 -
      ((2297/10^4) * (((5963 : ℝ)/5463) ^ (-(3/2) : ℝ)) * ((1 : ℝ)/10^8) +
        (3141/10^11) * (((5963 : ℝ)/5463) ^ (-(1/2) : ℝ))) * 1 /
        (1 + 3/2 * 1)] := by
  unfold robinson_stokes_body
  simp only [envW, sRS, pysign1, PyNum.val]
  norm_num [Real.sqrt_one]

/-- C10 : the `if not T` guard of `robinson_stokes_mobility` swallows the
legitimate temperature `T = 0` °C: the result at `T = 0` is the result at
the ion's current temperature `obj.T`, and concretely differs from the
correction actually evaluated at `0` °C; any nonzero temperature is passed
through unchanged to the body (so the Python default `T = 25` is the
constant `25`, not `obj.T`). -/
theorem C10_falsy_temperature_guard :
    (∀ (env : Env) (s : IonState) (I : ℚ),
      robinson_stokes_mobility env s I 0 =
        robinson_stokes_mobility env s I s.T) ∧
    (∀ (env : Env) (s : IonState) (I T : ℚ), T ≠ 0 →
      robinson_stokes_mobility env s I T = robinson_stokes_body env s I T) ∧
    robinson_stokes_mobility envW sRS 1 0 ≠
      robinson_stokes_body envW sRS 1 0 := by
  refine ⟨fun env s I => by simp [robinson_stokes_mobility],
    fun env s I T hT => by rw [robinson_stokes_mobility, if_neg hT], ?_⟩
  show robinson_stokes_body envW sRS 1 25 ≠ robinson_stokes_body envW sRS 1 0
  rw [rb25, rb0]
  have hr : (1 : ℝ) < 5963/5463 := by norm_num
  have hx : ((5963 : ℝ)/5463) ^ (-(3/2) : ℝ) < 1 :=
    Real.rpow_lt_one_of_one_lt_of_neg hr (by norm_num)
  have hy : ((5963 : ℝ)/5463) ^ (-(1/2) : ℝ) < 1 :=
    Real.rpow_lt_one_of_one_lt_of_neg hr (by norm_num)
  have hxp : (0 : ℝ) < ((5963 : ℝ)/5463) ^ (-(3/2) : ℝ) :=
    Real.rpow_pos_of_pos (by norm_num) _
  have hyp : (0 : ℝ) < ((5963 : ℝ)/5463) ^ (-(1/2) : ℝ) :=
    Real.rpow_pos_of_pos (by norm_num) _
  simp only [ne_eq, List.cons.injEq, and_true]
  intro h
  norm_num at h
  nlinarith [h, hx, hy, hxp, hyp]

/-- Witness for C10: a nonzero temperature is passed through to the body
unchanged. -/
theorem C10_falsy_temperature_guard_witness :
    ((7 : ℚ) ≠ 0) ∧
    robinson_stokes_mobility envW sRS 1 7 =
      robinson_stokes_body envW sRS 1 7 :=
  ⟨by norm_num,
   C10_falsy_temperature_guard.2.1 envW sRS 1 7 (by norm_num)⟩

theorem quarter_rpow_half : ((1/4 : ℝ)) ^ ((1 : ℝ)/2) = 1/2 := by
  rw [← Real.sqrt_eq_rpow]
  rw [show (1/4 : ℝ) = (1/2)^2 by norm_num]
  exact Real.sqrt_sq (by norm_num)

theorem quarter_rpow_neg_half : ((1/4 : ℝ)) ^ (-(1/2) : ℝ) = 2 := by
  rw [show (-(1/2) : ℝ) = -((1 : ℝ)/2) by norm_num,
    Real.rpow_neg (by norm_num), quarter_rpow_half]
  norm_num

theorem quarter_rpow_three_half : ((1/4 : ℝ)) ^ ((3 : ℝ)/2) = 1/8 := by
  rw [show ((3 : ℝ)/2) = (1/2) * 3 by ring, Real.rpow_mul (by norm_num)]
  rw [show ((1/4 : ℝ) ^ ((1 : ℝ)/2)) = 1/2 from quarter_rpow_half]
  rw [show (3 : ℝ) = ((3 : ℕ) : ℝ) by norm_num, Real.rpow_natCast]
  norm_num

theorem quarter_rpow_neg_three_half : ((1/4 : ℝ)) ^ (-(3/2) : ℝ) = 8 := by
  rw [show (-(3/2) : ℝ) = -((3 : ℝ)/2) by norm_num,
    Real.rpow_neg (by norm_num), quarter_rpow_three_half]
  norm_num

theorem rbC6code : robinson_stokes_body envDiel sRS 1 (91945/100) =
    [(1 : ℝ)/10^8 -
      ((2297/10^4) * 8 * ((1 : ℝ)/10^8) + (3141/10^11) * 2) * 1 /
        (1 + 3/2 * 1)] := by
  unfold robinson_stokes_body
  simp only [envDiel, envW, pysign1, sRS, PyNum.val]
  norm_num [Real.sqrt_one, quarter_rpow_neg_three_half, quarter_rpow_neg_half]

theorem rbC6claimed : robinson_stokes_claimed envDiel sRS 1 (91945/100) =
    [(1 : ℝ)/10^8 -
      ((2297/10^4) * ((1 : ℝ)/10^8) + 3141/10^11) * 1 / (1 + 3/2 * 1)] := by
  unfold robinson_stokes_claimed
  simp only [envDiel, envW, pysign1, sRS, PyNum.val]
  norm_num [Real.sqrt_one, Real.one_rpow]

/-- C6 (code bug): the source assigns `d_ref = obj.dielectric(T)` — the
working temperature — instead of the reference temperature, so the
dielectric cancels out of the ratio.  At `T = 919.45` with a solvent whose
dielectric is `1` at `25` °C and `1/4` elsewhere, the code's correction
differs from the correction whose reference-side dielectric is evaluated
at the reference temperature, as the claim (and the variable's own name)
intends. -/
theorem C6_dielectric_reference_divergence :
    robinson_stokes_mobility envDiel sRS 1 (91945/100) ≠
      robinson_stokes_claimed envDiel sRS 1 (91945/100) := by
  show robinson_stokes_body envDiel sRS 1 (91945/100) ≠
    robinson_stokes_claimed envDiel sRS 1 (91945/100)
  rw [rbC6code, rbC6claimed]
  simp only [ne_eq, List.cons.injEq, and_true]
  norm_num
